import Mathlib

/-!
Shallow embedding of `operations_dashboard/storage/repository.py`.

The repository stores dashboard summaries in SQLite: a `summaries` header
table and a `products` line-item table.  We model the database state as a
`Database` record holding the schema catalog, the rows of both tables and
the AUTOINCREMENT counters.  SQLite `REAL` columns are modelled by `Rat`
(exact arithmetic; the claims only compare values), `TEXT` by `String`
(SQLite's default BINARY collation compares TEXT by byte order, which for
the ASCII ISO date strings used here agrees with `String`'s lexicographic
order), `INTEGER` by `Int`, and nullable columns by `Option`.

Write statements run inside the transaction opened by
`with sqlite3.connect(...)`: on success the connection commits, on any
exception it rolls back.  We make the possible failure of each SQL
statement explicit with a fault oracle `failAt : Option Nat` (statement
`i` of the call raises iff `failAt = some i`); the transaction wrapper
`save_summary` then either returns the committed state or the original
(rolled-back) state.  Read statements are threaded through the `Database`
state exactly as the Python code threads its connection, so that the
frame property (reads do not write) is a statement about the embedding,
not a typing accident of a state-free signature.
-/

/-- Input product entry handed to the store.  The `ProductPerformance`
dataclass lives in `operations_dashboard.metrics.calculations`, outside the
persistence source; its field shape is fixed by the spec's input boundary
(identifier, title, revenue, units, sessions, conversion rate, refund
count, optional buy-box percentage) and by the fields `save_summary`
reads from it. -/
structure ProductPerformance where
  asin : String
  title : String
  revenue : Rat
  units : Int
  sessions : Int
  conversion_rate : Rat
  refunds : Int
  buy_box_percentage : Option Rat
deriving DecidableEq

/-- Aggregate totals of a dashboard summary, as read by `save_summary`
(`summary.totals.total_revenue` and so on). -/
structure DashboardTotals where
  total_revenue : Rat
  total_units : Int
  total_sessions : Int
  conversion_rate : Rat
  refund_rate : Rat
deriving DecidableEq

/-- Input summary object handed to `save_summary`.  `start` and `endDate`
hold the ISO strings `summary.start.isoformat()` / `summary.end.isoformat()`
that the Python code writes (`end` is a reserved word in Lean, hence
`endDate`). -/
structure DashboardSummary where
  start : String
  endDate : String
  source_name : String
  totals : DashboardTotals
  top_products : List ProductPerformance
deriving DecidableEq

/-- One row of the `summaries` table (schema from `initialize`). -/
structure SummaryRow where
  id : Nat
  start_date : String
  end_date : String
  source : String
  total_revenue : Rat
  total_units : Int
  total_sessions : Int
  conversion_rate : Rat
  refund_rate : Rat
  created_at : String
deriving DecidableEq

/-- One row of the `products` table (schema from `initialize`). -/
structure ProductRow where
  id : Nat
  summary_id : Nat
  asin : String
  title : String
  revenue : Rat
  units : Int
  sessions : Int
  conversion_rate : Rat
  refunds : Int
  buy_box_percentage : Option Rat
deriving DecidableEq

/-- Catalog entry for one table: its name, column names in declaration
order, and table-level constraint clauses. -/
structure TableSchema where
  name : String
  columns : List String
  constraints : List String
deriving DecidableEq

/-- The whole SQLite database: whether the containing directory exists,
the schema catalog, the rows of both tables, and the AUTOINCREMENT
counters (SQLite hands out strictly increasing ids from the
`sqlite_sequence` bookkeeping, starting at 1). -/
structure Database where
  dirExists : Bool
  tables : List TableSchema
  summaries : List SummaryRow
  products : List ProductRow
  nextSummaryId : Nat
  nextProductId : Nat
deriving DecidableEq

/-- Mirror of the Python `StoredProduct` dataclass: the eight columns
selected by `_fetch_products` (no id, no summary_id). -/
structure StoredProduct where
  asin : String
  title : String
  revenue : Rat
  units : Int
  sessions : Int
  conversion_rate : Rat
  refunds : Int
  buy_box_percentage : Option Rat
deriving DecidableEq

/-- Mirror of the Python `StoredSummary` dataclass (`end` is a reserved
word in Lean, hence `endDate`). -/
structure StoredSummary where
  id : Nat
  start : String
  endDate : String
  source : String
  total_revenue : Rat
  total_units : Int
  total_sessions : Int
  conversion_rate : Rat
  refund_rate : Rat
  created_at : String
  products : List StoredProduct
deriving DecidableEq

/-- Schema of the `summaries` table as created by `initialize`. -/
def summariesTableSchema : TableSchema :=
  { name := "summaries"
    columns := ["id", "start_date", "end_date", "source", "total_revenue",
      "total_units", "total_sessions", "conversion_rate", "refund_rate", "created_at"]
    constraints := ["PRIMARY KEY id AUTOINCREMENT"] }

/-- Schema of the `products` table as created by `initialize`. -/
def productsTableSchema : TableSchema :=
  { name := "products"
    columns := ["id", "summary_id", "asin", "title", "revenue", "units",
      "sessions", "conversion_rate", "refunds", "buy_box_percentage"]
    constraints := ["PRIMARY KEY id AUTOINCREMENT",
      "UNIQUE (summary_id, asin)",
      "FOREIGN KEY summary_id REFERENCES summaries id ON DELETE CASCADE"] }

/-- Does the catalog already hold a table of this name?  (SQLite's
`CREATE TABLE IF NOT EXISTS` check.) -/
def hasTable (db : Database) (name : String) : Bool :=
  db.tables.any (fun t => t.name == name)

/-- One `CREATE TABLE IF NOT EXISTS` statement: a no-op when the table
exists, otherwise it adds the schema to the catalog and touches no rows. -/
def createTableIfNotExists (db : Database) (t : TableSchema) : Database :=
  if hasTable db t.name then db else { db with tables := db.tables ++ [t] }

/-- Model of `SQLiteRepository.initialize`: create the parent directory if
absent, then run the two `CREATE TABLE IF NOT EXISTS` statements of the
DDL script. -/
def initializeDb (db : Database) : Database :=
  let db1 := if db.dirExists then db else { db with dirExists := true }
  let db2 := createTableIfNotExists db1 summariesTableSchema
  createTableIfNotExists db2 productsTableSchema

/-- A freshly initialized, empty store. -/
def emptyDb : Database :=
  initializeDb
    { dirExists := false, tables := [], summaries := [], products := [],
      nextSummaryId := 1, nextProductId := 1 }

/-- The header row that `save_summary`'s INSERT writes for input `s` with
the call's timestamp. -/
def mkSummaryRow (id : Nat) (s : DashboardSummary) (created_at : String) : SummaryRow :=
  { id
    start_date := s.start
    end_date := s.endDate
    source := s.source_name
    total_revenue := s.totals.total_revenue
    total_units := s.totals.total_units
    total_sessions := s.totals.total_sessions
    conversion_rate := s.totals.conversion_rate
    refund_rate := s.totals.refund_rate
    created_at }

/-- The header INSERT of `save_summary`: appends one row with the next
AUTOINCREMENT id and returns that id (`cursor.lastrowid`). -/
def insertSummaryRow (db : Database) (s : DashboardSummary) (created_at : String) :
    Database × Nat :=
  let sid := db.nextSummaryId
  ({ db with
      summaries := db.summaries ++ [mkSummaryRow sid s created_at]
      nextSummaryId := sid + 1 }, sid)

/-- The line-item row written for product `p` under summary key `sid`
with AUTOINCREMENT id `id`. -/
def mkProductRow (id : Nat) (sid : Nat) (p : ProductPerformance) : ProductRow :=
  { id
    summary_id := sid
    asin := p.asin
    title := p.title
    revenue := p.revenue
    units := p.units
    sessions := p.sessions
    conversion_rate := p.conversion_rate
    refunds := p.refunds
    buy_box_percentage := p.buy_box_percentage }

/-- Does row `r` collide with key pair `(sid, asin)` under the
`UNIQUE(summary_id, asin)` constraint? -/
def productKeyMatches (sid : Nat) (asin : String) (r : ProductRow) : Bool :=
  r.summary_id == sid && r.asin == asin

/-- One `INSERT OR REPLACE INTO products` statement: SQLite deletes any
row violating `UNIQUE(summary_id, asin)` and inserts the new row, which
(its id being unspecified in the column list) receives a fresh
AUTOINCREMENT id. -/
def insertOrReplaceProduct (db : Database) (sid : Nat) (p : ProductPerformance) : Database :=
  { db with
    products :=
      db.products.filter (fun r => !(productKeyMatches sid p.asin r))
        ++ [mkProductRow db.nextProductId sid p]
    nextProductId := db.nextProductId + 1 }

/-- Failure of a SQL statement inside the transaction (the exception
`sqlite3` would raise). -/
inductive SqlError where
  | fault : SqlError
deriving DecidableEq

deriving instance DecidableEq for Except

/-- The `executemany` loop of `save_summary`, one `INSERT OR REPLACE` per
product in list order; statement `i` raises iff the fault oracle says so,
and `executemany` stops at the first failing row. -/
def insertProductsLoop (failAt : Option Nat) (sid : Nat) :
    Nat → Database → List ProductPerformance → Except SqlError Database
  | _, db, [] => Except.ok db
  | i, db, p :: ps =>
    if failAt = some i then Except.error SqlError.fault
    else insertProductsLoop failAt sid (i + 1) (insertOrReplaceProduct db sid p) ps

/-- Body of `save_summary`'s transaction: statement 0 is the header
INSERT, statements 1.. are the product inserts. -/
def saveSummaryBody (db : Database) (s : DashboardSummary) (created_at : String)
    (failAt : Option Nat) : Except SqlError (Database × Nat) :=
  if failAt = some 0 then Except.error SqlError.fault
  else
    let r := insertSummaryRow db s created_at
    (insertProductsLoop failAt r.2 1 r.1 s.top_products).map (fun db2 => (db2, r.2))

/-- Model of `SQLiteRepository.save_summary`.  `created_at` is the
timestamp taken at the moment of the call.  The `with` block commits the
body's final state on success and rolls back to the entry state on any
exception, re-raising it. -/
def save_summary (db : Database) (s : DashboardSummary) (created_at : String)
    (failAt : Option Nat) : Database × Except SqlError Nat :=
  match saveSummaryBody db s created_at failAt with
  | Except.ok r => (r.1, Except.ok r.2)
  | Except.error e => (db, Except.error e)

/-- Row order of `ORDER BY start_date DESC, id DESC`: `a` comes no later
than `b` iff `a`'s start date is larger, or equal with `a`'s id at least
`b`'s. -/
def summaryOrder (a b : SummaryRow) : Prop :=
  b.start_date < a.start_date ∨ (a.start_date = b.start_date ∧ b.id ≤ a.id)

instance : DecidableRel summaryOrder := fun a b =>
  decidable_of_iff
    (b.start_date.toList < a.start_date.toList ∨ (a.start_date = b.start_date ∧ b.id ≤ a.id))
    (by unfold summaryOrder; rw [String.lt_iff_toList_lt])

/-- Row order of `ORDER BY revenue DESC` on product rows. -/
def productRowOrder (a b : ProductRow) : Prop :=
  b.revenue ≤ a.revenue

instance : DecidableRel productRowOrder := fun a b =>
  inferInstanceAs (Decidable (b.revenue ≤ a.revenue))

/-- Row order of `ORDER BY id DESC` on header rows. -/
def idDescOrder (a b : SummaryRow) : Prop :=
  b.id ≤ a.id

instance : DecidableRel idDescOrder := fun a b =>
  inferInstanceAs (Decidable (b.id ≤ a.id))

/-- Row-to-dataclass mapping of `_fetch_products`. -/
def toStoredProduct (r : ProductRow) : StoredProduct :=
  { asin := r.asin
    title := r.title
    revenue := r.revenue
    units := r.units
    sessions := r.sessions
    conversion_rate := r.conversion_rate
    refunds := r.refunds
    buy_box_percentage := r.buy_box_percentage }

/-- Model of `SQLiteRepository._fetch_products`: the SELECT over
`products` with `WHERE summary_id = ? ORDER BY revenue DESC`, run on the
open connection (state threaded through, unchanged by a SELECT). -/
def fetch_products (db : Database) (sid : Nat) : Database × List StoredProduct :=
  (db,
    ((db.products.filter (fun r => r.summary_id == sid)).insertionSort
        productRowOrder).map toStoredProduct)

/-- Row-to-dataclass mapping of the header SELECTs: a `StoredSummary`
from a header row and its already-fetched products. -/
def mkStoredSummary (row : SummaryRow) (products : List StoredProduct) : StoredSummary :=
  { id := row.id
    start := row.start_date
    endDate := row.end_date
    source := row.source
    total_revenue := row.total_revenue
    total_units := row.total_units
    total_sessions := row.total_sessions
    conversion_rate := row.conversion_rate
    refund_rate := row.refund_rate
    created_at := row.created_at
    products }

/-- The `for row in rows` loop of `fetch_recent_summaries`: one products
SELECT per header row, threaded on the same connection. -/
def fetchSummariesLoop : Database → List SummaryRow → Database × List StoredSummary
  | db, [] => (db, [])
  | db, row :: rest =>
    let pr := fetch_products db row.id
    let tl := fetchSummariesLoop pr.1 rest
    (tl.1, mkStoredSummary row pr.2 :: tl.2)

/-- Model of `SQLiteRepository.fetch_recent_summaries`: SELECT the header
rows `ORDER BY start_date DESC, id DESC LIMIT ?`, then load each one's
products. -/
def fetch_recent_summaries (db : Database) (limit : Nat) :
    Database × List StoredSummary :=
  fetchSummariesLoop db ((db.summaries.insertionSort summaryOrder).take limit)

/-- Model of `SQLiteRepository.fetch_by_start_date`: SELECT the header
rows with `WHERE start_date = ? ORDER BY id DESC LIMIT 1`, return `none`
when no row matches, else load the row's products. -/
def fetch_by_start_date (db : Database) (start : String) :
    Database × Option StoredSummary :=
  match ((db.summaries.filter (fun r => r.start_date == start)).insertionSort
      idDescOrder).head? with
  | none => (db, none)
  | some row =>
    let pr := fetch_products db row.id
    (pr.1, some (mkStoredSummary row pr.2))

/-- Engine-level `DELETE FROM summaries WHERE id = ?` under the schema
`initialize` creates: with `PRAGMA foreign_keys = ON`, deleting a header
row fires the `ON DELETE CASCADE` clause of `products.summary_id`,
deleting every line-item owned by that header; when no header matches,
nothing is deleted and no cascade fires. -/
def deleteSummary (db : Database) (sid : Nat) : Database :=
  if db.summaries.any (fun r => r.id == sid) then
    { db with
      summaries := db.summaries.filter (fun r => !(r.id == sid))
      products := db.products.filter (fun r => !(r.summary_id == sid)) }
  else db

/-- The product rows a collision-free `save_summary` call appends:
consecutive AUTOINCREMENT ids from `pid`, all owned by `sid`, in input
order. -/
def newProductRows (sid : Nat) : Nat → List ProductPerformance → List ProductRow
  | _, [] => []
  | pid, p :: ps => mkProductRow pid sid p :: newProductRows sid (pid + 1) ps

/-- Order `ORDER BY start_date DESC, id DESC` read off the returned
`StoredSummary` records. -/
def storedSummaryOrder (a b : StoredSummary) : Prop :=
  b.start < a.start ∨ (a.start = b.start ∧ b.id ≤ a.id)

/-- Order `ORDER BY revenue DESC` read off the returned `StoredProduct`
records. -/
def storedProductOrder (a b : StoredProduct) : Prop :=
  b.revenue ≤ a.revenue

/-- A conversion that forgets nothing the SELECT of `_fetch_products`
keeps: the `StoredProduct` a line-item for input entry `p` maps back to. -/
def toStoredOfPerformance (p : ProductPerformance) : StoredProduct :=
  { asin := p.asin
    title := p.title
    revenue := p.revenue
    units := p.units
    sessions := p.sessions
    conversion_rate := p.conversion_rate
    refunds := p.refunds
    buy_box_percentage := p.buy_box_percentage }

instance : IsTotal SummaryRow summaryOrder :=
  ⟨by
    intro a b
    rcases lt_trichotomy a.start_date b.start_date with h | h | h
    · exact Or.inr (Or.inl h)
    · rcases Nat.le_total b.id a.id with hi | hi
      · exact Or.inl (Or.inr ⟨h, hi⟩)
      · exact Or.inr (Or.inr ⟨h.symm, hi⟩)
    · exact Or.inl (Or.inl h)⟩

instance : IsTrans SummaryRow summaryOrder :=
  ⟨by
    intro a b c hab hbc
    rcases hab with hab | ⟨hab, hid⟩
    · rcases hbc with hbc | ⟨hbc, _⟩
      · exact Or.inl (lt_trans hbc hab)
      · exact Or.inl (hbc ▸ hab)
    · rcases hbc with hbc | ⟨hbc, hid2⟩
      · exact Or.inl (hab ▸ hbc)
      · exact Or.inr ⟨hab.trans hbc, le_trans hid2 hid⟩⟩

instance : IsTotal ProductRow productRowOrder :=
  ⟨fun a b => (le_total b.revenue a.revenue).imp id id⟩

instance : IsTrans ProductRow productRowOrder :=
  ⟨fun _ _ _ hab hbc => le_trans hbc hab⟩

instance : IsTotal SummaryRow idDescOrder :=
  ⟨fun a b => (Nat.le_total b.id a.id).imp id id⟩

instance : IsTrans SummaryRow idDescOrder :=
  ⟨fun _ _ _ hab hbc => le_trans hbc hab⟩

/-- Example store for witnesses: one saved summary with window start
2024-01-01 and two products whose revenues are 600 and 400. -/
def exProd1 : ProductPerformance :=
  { asin := "P1", title := "product one", revenue := 600, units := 10, sessions := 100,
    conversion_rate := (1 : Rat) / 10, refunds := 1, buy_box_percentage := some ((9 : Rat) / 10) }

/-- Second example product entry, revenue 400, no buy-box percentage. -/
def exProd2 : ProductPerformance :=
  { asin := "P2", title := "product two", revenue := 400, units := 5, sessions := 50,
    conversion_rate := (1 : Rat) / 20, refunds := 0, buy_box_percentage := none }

/-- The round-trip summary of the spec: start 2024-01-01, end 2024-01-07,
source reportA, totals (1000, 50, 500, 0.1, 0.02), products given in
ascending revenue order so that the read path has to reorder them. -/
def exSummary : DashboardSummary :=
  { start := "2024-01-01", endDate := "2024-01-07", source_name := "reportA",
    totals := { total_revenue := 1000, total_units := 50, total_sessions := 500,
                conversion_rate := (1 : Rat) / 10, refund_rate := (1 : Rat) / 50 },
    top_products := [exProd2, exProd1] }

/-- Example store holding `exSummary`, for use as a concrete witness
state. -/
def exDb : Database :=
  (save_summary emptyDb exSummary "2024-01-08T00:00:00" none).1

/-- The store holds some line-item under key pair `(sid, a)`. -/
def hasPair (d : Database) (sid : Nat) (a : String) : Prop :=
  ∃ r ∈ d.products, r.summary_id = sid ∧ r.asin = a

/-- Second example store: `exSummary` written twice (ids 1 and 2), so two
headers share start date 2024-01-01. -/
def exDb2 : Database :=
  (save_summary exDb exSummary "2024-01-09T00:00:00" none).1

/-- A second entry carrying the same product identifier P1 as `exProd1`
but different values. -/
def dupProd : ProductPerformance :=
  { asin := "P1", title := "product one again", revenue := 500, units := 1, sessions := 10,
    conversion_rate := (1 : Rat) / 10, refunds := 0, buy_box_percentage := none }

/-- An input summary whose top-products collection repeats the product
identifier P1. -/
def dupSummary : DashboardSummary :=
  { start := "2024-02-01", endDate := "2024-02-07", source_name := "reportA",
    totals := { total_revenue := 1100, total_units := 11, total_sessions := 110,
                conversion_rate := (1 : Rat) / 10, refund_rate := (1 : Rat) / 50 },
    top_products := [exProd1, dupProd] }

/-- Input summary identical to `exSummary` but for the following window
(start 2024-01-08, end 2024-01-14). -/
def exSummary8 : DashboardSummary :=
  { exSummary with start := "2024-01-08", endDate := "2024-01-14" }

/-- Example store holding summaries with start dates 2024-01-01 and
2024-01-08, written in that order. -/
def exDbDates : Database :=
  (save_summary exDb exSummary8 "2024-01-15T00:00:00" none).1


/-- A products SELECT leaves the database untouched, so the per-row fetch
loop of `fetch_recent_summaries` leaves it untouched as well. -/
theorem fetchSummariesLoop_fst (db : Database) (rows : List SummaryRow) :
    (fetchSummariesLoop db rows).1 = db := by
  induction rows generalizing db with
  | nil => rfl
  | cons row rest ih => simpa [fetchSummariesLoop, fetch_products] using ih db

/-- Value computed by the per-row fetch loop: one `StoredSummary` per
selected header row, in selection order, each with the products SELECT
evaluated against the (unchanged) database. -/
theorem fetchSummariesLoop_snd (db : Database) (rows : List SummaryRow) :
    (fetchSummariesLoop db rows).2
      = rows.map (fun row => mkStoredSummary row (fetch_products db row.id).2) := by
  induction rows generalizing db with
  | nil => rfl
  | cons row rest ih => simp [fetchSummariesLoop, fetch_products, ih db]

/-- C10: The read operations `fetch_recent_summaries` and
`fetch_by_start_date` never modify the stored state: for every store
state and every input, the database after the call is the one before
it. -/
theorem fetch_reads_pure (db : Database) (limit : Nat) (start : String) :
    (fetch_recent_summaries db limit).1 = db
    ∧ (fetch_by_start_date db start).1 = db := by
  constructor
  · exact fetchSummariesLoop_fst db _
  · unfold fetch_by_start_date
    cases ((db.summaries.filter (fun r => r.start_date == start)).insertionSort
        idDescOrder).head? with
    | none => rfl
    | some row => rfl

/-- C5: On a store state in which no header row has the given window
start date, `fetch_by_start_date` returns `none` as a normal result. -/
theorem fetch_by_start_date_not_found (db : Database) (start : String)
    (h : ∀ r ∈ db.summaries, r.start_date ≠ start) :
    (fetch_by_start_date db start).2 = none := by
  have hfil : db.summaries.filter (fun r => r.start_date == start) = [] := by
    rw [List.filter_eq_nil_iff]
    intro r hr
    simpa using h r hr
  simp [fetch_by_start_date, hfil]

/-- Witness for C5: on `exDb` (whose only header has start 2024-01-01),
looking up 2024-02-02 yields `none`. -/
theorem fetch_by_start_date_not_found_witness :
    (∀ r ∈ exDb.summaries, r.start_date ≠ "2024-02-02")
    ∧ (fetch_by_start_date exDb "2024-02-02").2 = none :=
  ⟨by decide, fetch_by_start_date_not_found exDb "2024-02-02" (by decide)⟩

/-- C6: An `INSERT OR REPLACE` whose (summary key, product identifier)
pair collides with an existing line-item replaces that row's values
instead of producing a second row or failing: afterwards the rows
matching the pair are exactly the one newly written row, and the rows not
matching the pair are untouched. -/
theorem insertOrReplaceProduct_replaces (db : Database) (sid : Nat) (p : ProductPerformance)
    (h : ∃ r ∈ db.products, productKeyMatches sid p.asin r = true) :
    ((insertOrReplaceProduct db sid p).products.filter (productKeyMatches sid p.asin)
        = [mkProductRow db.nextProductId sid p])
    ∧ ((insertOrReplaceProduct db sid p).products.filter
          (fun r => !(productKeyMatches sid p.asin r))
        = db.products.filter (fun r => !(productKeyMatches sid p.asin r))) := by
  clear h
  constructor
  · simp [insertOrReplaceProduct, List.filter_append, List.filter_filter,
      productKeyMatches, mkProductRow]
  · simp [insertOrReplaceProduct, List.filter_append, List.filter_filter,
      productKeyMatches, mkProductRow]

/-- Witness for C6: on `exDb`, re-inserting a row for the pair (summary 1,
asin P1) leaves exactly one matching row, holding the new values. -/
theorem insertOrReplaceProduct_replaces_witness :
    (∃ r ∈ exDb.products, productKeyMatches 1 exProd1.asin r = true)
    ∧ ((insertOrReplaceProduct exDb 1 exProd1).products.filter
          (productKeyMatches 1 exProd1.asin)
        = [mkProductRow exDb.nextProductId 1 exProd1])
    ∧ ((insertOrReplaceProduct exDb 1 exProd1).products.filter
          (fun r => !(productKeyMatches 1 exProd1.asin r))
        = exDb.products.filter (fun r => !(productKeyMatches 1 exProd1.asin r))) :=
  ⟨by decide, insertOrReplaceProduct_replaces exDb 1 exProd1 (by decide)⟩

/-- C7: When both tables already exist in the catalog, running
`initialize` again changes neither the table structure nor any stored
header or line-item row nor the id counters. -/
theorem initializeDb_idempotent (db : Database)
    (h1 : hasTable db "summaries" = true) (h2 : hasTable db "products" = true) :
    (initializeDb db).tables = db.tables
    ∧ (initializeDb db).summaries = db.summaries
    ∧ (initializeDb db).products = db.products
    ∧ (initializeDb db).nextSummaryId = db.nextSummaryId
    ∧ (initializeDb db).nextProductId = db.nextProductId := by
  by_cases hd : db.dirExists <;>
    simp_all [initializeDb, createTableIfNotExists, hasTable,
      summariesTableSchema, productsTableSchema]

/-- Witness for C7: running `initialize` on the already-initialized
`exDb` keeps catalog, rows and counters. -/
theorem initializeDb_idempotent_witness :
    (hasTable exDb "summaries" = true ∧ hasTable exDb "products" = true)
    ∧ ((initializeDb exDb).tables = exDb.tables
        ∧ (initializeDb exDb).summaries = exDb.summaries
        ∧ (initializeDb exDb).products = exDb.products
        ∧ (initializeDb exDb).nextSummaryId = exDb.nextSummaryId
        ∧ (initializeDb exDb).nextProductId = exDb.nextProductId) :=
  ⟨⟨by decide, by decide⟩, initializeDb_idempotent exDb (by decide) (by decide)⟩

/-- C8: Deleting a header row (with the referential-integrity enforcement
`initialize` configures) removes every line-item owned by it: afterwards
no header row and no line-item row carries the deleted key, while
line-items of other headers survive. -/
theorem deleteSummary_cascades (db : Database) (sid : Nat)
    (h : ∃ r ∈ db.summaries, r.id = sid) :
    (∀ r ∈ (deleteSummary db sid).summaries, r.id ≠ sid)
    ∧ (∀ p ∈ (deleteSummary db sid).products, p.summary_id ≠ sid)
    ∧ (∀ p ∈ db.products, p.summary_id ≠ sid → p ∈ (deleteSummary db sid).products) := by
  obtain ⟨r0, hr0, hid0⟩ := h
  have hcond : db.summaries.any (fun r => r.id == sid) = true := by
    rw [List.any_eq_true]
    exact ⟨r0, hr0, by simpa using hid0⟩
  refine ⟨?_, ?_, ?_⟩
  · intro r hr
    rw [deleteSummary, if_pos hcond] at hr
    simpa using (List.mem_filter.mp hr).2
  · intro p hp
    rw [deleteSummary, if_pos hcond] at hp
    simpa using (List.mem_filter.mp hp).2
  · intro p hp hne
    rw [deleteSummary, if_pos hcond]
    exact List.mem_filter.mpr ⟨hp, by simpa using hne⟩

/-- Witness for C8: deleting header 1 from `exDb` empties both its header
and its two line-items; a line-item of another header would survive
(vacuously here, checked on the concrete lists). -/
theorem deleteSummary_cascades_witness :
    (∃ r ∈ exDb.summaries, r.id = 1)
    ∧ ((∀ r ∈ (deleteSummary exDb 1).summaries, r.id ≠ 1)
        ∧ (∀ p ∈ (deleteSummary exDb 1).products, p.summary_id ≠ 1)
        ∧ (∀ p ∈ exDb.products, p.summary_id ≠ 1 → p ∈ (deleteSummary exDb 1).products)) :=
  ⟨by decide, deleteSummary_cascades exDb 1 (by decide)⟩

/-- Every row a collision-free save appends is owned by the new summary
key. -/
theorem newProductRows_summary_id (sid : Nat) :
    ∀ (pid : Nat) (ps : List ProductPerformance),
      ∀ r ∈ newProductRows sid pid ps, r.summary_id = sid := by
  intro pid ps
  induction ps generalizing pid with
  | nil => intro r hr; simp [newProductRows] at hr
  | cons p ps ih =>
    intro r hr
    rcases (List.mem_cons).mp hr with h | h
    · subst h; rfl
    · exact ih (pid + 1) r h

/-- The product identifiers of the appended rows are the input's product
identifiers, in order. -/
theorem newProductRows_map_asin (sid : Nat) :
    ∀ (pid : Nat) (ps : List ProductPerformance),
      (newProductRows sid pid ps).map ProductRow.asin = ps.map ProductPerformance.asin := by
  intro pid ps
  induction ps generalizing pid with
  | nil => rfl
  | cons p ps ih => simp [newProductRows, mkProductRow, ih (pid + 1)]

/-- Reading the appended rows back through `_fetch_products`' column list
recovers the input entries. -/
theorem newProductRows_map_toStored (sid : Nat) :
    ∀ (pid : Nat) (ps : List ProductPerformance),
      (newProductRows sid pid ps).map toStoredProduct = ps.map toStoredOfPerformance := by
  intro pid ps
  induction ps generalizing pid with
  | nil => rfl
  | cons p ps ih =>
    simp only [newProductRows, List.map_cons, ih (pid + 1)]
    rfl

/-- The number of appended rows is the number of input entries. -/
theorem newProductRows_length (sid : Nat) :
    ∀ (pid : Nat) (ps : List ProductPerformance),
      (newProductRows sid pid ps).length = ps.length := by
  intro pid ps
  induction ps generalizing pid with
  | nil => rfl
  | cons p ps ih => simp [newProductRows, ih (pid + 1)]

/-- The `executemany` loop of a collision-free save (pairwise distinct
input identifiers, no pre-existing row under the new summary key) never
replaces anything: it plainly appends one row per entry with consecutive
AUTOINCREMENT ids. -/
theorem insertProductsLoop_clean (sid : Nat) :
    ∀ (ps : List ProductPerformance),
      (ps.map ProductPerformance.asin).Nodup →
      ∀ (i : Nat) (d : Database),
        (∀ r ∈ d.products, r.summary_id = sid → r.asin ∉ ps.map ProductPerformance.asin) →
        insertProductsLoop none sid i d ps
          = Except.ok { d with
              products := d.products ++ newProductRows sid d.nextProductId ps
              nextProductId := d.nextProductId + ps.length } := by
  intro ps
  induction ps with
  | nil =>
    intro _ i d _
    simp [insertProductsLoop, newProductRows]
  | cons p ps ih =>
    intro hA i d hclean
    rw [List.map_cons, List.nodup_cons] at hA
    have hA' := hA
    have hfil : d.products.filter (fun r => !(productKeyMatches sid p.asin r)) = d.products := by
      rw [List.filter_eq_self]
      intro r hr
      simp only [productKeyMatches, Bool.not_eq_true', Bool.and_eq_false_iff]
      by_cases hs : r.summary_id = sid
      · refine Or.inr ?_
        have := hclean r hr hs
        simp only [List.map_cons, List.mem_cons, not_or] at this
        simpa using this.1
      · exact Or.inl (by simpa using hs)
    have hstep :
        insertOrReplaceProduct d sid p
          = { d with
              products := d.products ++ [mkProductRow d.nextProductId sid p]
              nextProductId := d.nextProductId + 1 } := by
      rw [insertOrReplaceProduct, hfil]
    have hclean' :
        ∀ r ∈ (insertOrReplaceProduct d sid p).products,
          r.summary_id = sid → r.asin ∉ ps.map ProductPerformance.asin := by
      rw [hstep]
      intro r hr hs
      rcases List.mem_append.mp hr with h | h
      · have := hclean r h hs
        simp only [List.map_cons, List.mem_cons, not_or] at this
        exact this.2
      · have : r = mkProductRow d.nextProductId sid p := by simpa using h
        subst this
        simpa [mkProductRow] using hA'.1
    rw [insertProductsLoop, if_neg (by simp)]
    rw [ih hA'.2 (i + 1) (insertOrReplaceProduct d sid p) hclean']
    rw [hstep]
    simp only [Except.ok.injEq, Database.mk.injEq, true_and, and_true]
    refine ⟨?_, ?_⟩
    · simp [newProductRows, List.append_assoc]
    · simp only [List.length_cons]
      omega

/-- A clean `save_summary` call (fresh header key unused by any stored
line-item, pairwise distinct input identifiers, no statement failing)
commits exactly the header row and one line-item per entry, and returns
the new surrogate key. -/
theorem save_summary_none_eq (db : Database) (s : DashboardSummary) (c : String)
    (hA : (s.top_products.map ProductPerformance.asin).Nodup)
    (hP : ∀ p ∈ db.products, p.summary_id ≠ db.nextSummaryId) :
    save_summary db s c none
      = ({ db with
            summaries := db.summaries ++ [mkSummaryRow db.nextSummaryId s c]
            products :=
              db.products ++ newProductRows db.nextSummaryId db.nextProductId s.top_products
            nextSummaryId := db.nextSummaryId + 1
            nextProductId := db.nextProductId + s.top_products.length },
          Except.ok db.nextSummaryId) := by
  have hclean :
      ∀ r ∈ (insertSummaryRow db s c).1.products,
        r.summary_id = db.nextSummaryId → r.asin ∉ s.top_products.map ProductPerformance.asin := by
    intro r hr hs
    exact absurd hs (hP r hr)
  have hloop :=
    insertProductsLoop_clean db.nextSummaryId s.top_products hA 1 (insertSummaryRow db s c).1 hclean
  have hbody : saveSummaryBody db s c none
      = Except.ok
          ({ db with
              summaries := db.summaries ++ [mkSummaryRow db.nextSummaryId s c]
              products :=
                db.products ++ newProductRows db.nextSummaryId db.nextProductId s.top_products
              nextSummaryId := db.nextSummaryId + 1
              nextProductId := db.nextProductId + s.top_products.length },
            db.nextSummaryId) := by
    rw [saveSummaryBody, if_neg (by simp)]
    show (insertProductsLoop none db.nextSummaryId 1 (insertSummaryRow db s c).1
        s.top_products).map (fun db2 => (db2, db.nextSummaryId)) = _
    rw [hloop]
    rfl
  simp only [save_summary, hbody]

/-- C9: A successful `save_summary` call inserts exactly one header row
under a surrogate key no existing header carries, appends one line-item
row per entry of the input's top-products collection under that key, and
returns the key.  The hypotheses are the store invariants a reachable
database satisfies (ids below the AUTOINCREMENT counters, line-items
owned by existing headers) plus the input having pairwise distinct
product identifiers. -/
theorem save_summary_success (db : Database) (s : DashboardSummary) (c : String)
    (hA : (s.top_products.map ProductPerformance.asin).Nodup)
    (hP : ∀ p ∈ db.products, p.summary_id ≠ db.nextSummaryId)
    (hIds : ∀ r ∈ db.summaries, r.id < db.nextSummaryId) :
    save_summary db s c none
      = ({ db with
            summaries := db.summaries ++ [mkSummaryRow db.nextSummaryId s c]
            products :=
              db.products ++ newProductRows db.nextSummaryId db.nextProductId s.top_products
            nextSummaryId := db.nextSummaryId + 1
            nextProductId := db.nextProductId + s.top_products.length },
          Except.ok db.nextSummaryId)
    ∧ (∀ r ∈ db.summaries, r.id ≠ db.nextSummaryId)
    ∧ (∀ r ∈ newProductRows db.nextSummaryId db.nextProductId s.top_products,
        r.summary_id = db.nextSummaryId)
    ∧ (newProductRows db.nextSummaryId db.nextProductId s.top_products).length
        = s.top_products.length := by
  refine ⟨save_summary_none_eq db s c hA hP, ?_, ?_, ?_⟩
  · intro r hr
    exact Nat.ne_of_lt (hIds r hr)
  · exact newProductRows_summary_id db.nextSummaryId db.nextProductId s.top_products
  · exact newProductRows_length db.nextSummaryId db.nextProductId s.top_products

/-- Witness for C9: saving `exSummary` into the empty store returns key 1
and commits the header plus both line-items. -/
theorem save_summary_success_witness :
    ((exSummary.top_products.map ProductPerformance.asin).Nodup
      ∧ (∀ p ∈ emptyDb.products, p.summary_id ≠ emptyDb.nextSummaryId)
      ∧ (∀ r ∈ emptyDb.summaries, r.id < emptyDb.nextSummaryId))
    ∧ save_summary emptyDb exSummary "2024-01-08T00:00:00" none
        = ({ emptyDb with
              summaries :=
                emptyDb.summaries ++ [mkSummaryRow emptyDb.nextSummaryId exSummary "2024-01-08T00:00:00"]
              products :=
                emptyDb.products
                  ++ newProductRows emptyDb.nextSummaryId emptyDb.nextProductId exSummary.top_products
              nextSummaryId := emptyDb.nextSummaryId + 1
              nextProductId := emptyDb.nextProductId + exSummary.top_products.length },
            Except.ok emptyDb.nextSummaryId) :=
  ⟨⟨by decide, by decide, by decide⟩,
    (save_summary_success emptyDb exSummary "2024-01-08T00:00:00"
      (by decide) (by decide) (by decide)).1⟩

/-- C3: Writing a summary whose window start date is previously unused
and reading it back by that start date yields a record whose header
fields equal the written ones (with the call's timestamp) and whose
line-items are exactly the written product entries, ordered by revenue
descending. -/
theorem save_fetch_round_trip (db : Database) (s : DashboardSummary) (c : String)
    (hStart : ∀ r ∈ db.summaries, r.start_date ≠ s.start)
    (hP : ∀ p ∈ db.products, p.summary_id ≠ db.nextSummaryId)
    (hA : (s.top_products.map ProductPerformance.asin).Nodup) :
    ∃ rec, (fetch_by_start_date (save_summary db s c none).1 s.start).2 = some rec
      ∧ rec.start = s.start
      ∧ rec.endDate = s.endDate
      ∧ rec.source = s.source_name
      ∧ rec.total_revenue = s.totals.total_revenue
      ∧ rec.total_units = s.totals.total_units
      ∧ rec.total_sessions = s.totals.total_sessions
      ∧ rec.conversion_rate = s.totals.conversion_rate
      ∧ rec.refund_rate = s.totals.refund_rate
      ∧ rec.created_at = c
      ∧ List.Sorted storedProductOrder rec.products
      ∧ rec.products.Perm (s.top_products.map toStoredOfPerformance) := by
  have hdb : (save_summary db s c none).1
      = { db with
          summaries := db.summaries ++ [mkSummaryRow db.nextSummaryId s c]
          products :=
            db.products ++ newProductRows db.nextSummaryId db.nextProductId s.top_products
          nextSummaryId := db.nextSummaryId + 1
          nextProductId := db.nextProductId + s.top_products.length } := by
    rw [save_summary_none_eq db s c hA hP]
  have hfilS : (save_summary db s c none).1.summaries.filter
      (fun r => r.start_date == s.start) = [mkSummaryRow db.nextSummaryId s c] := by
    rw [hdb]
    show (db.summaries ++ [mkSummaryRow db.nextSummaryId s c]).filter
        (fun r => r.start_date == s.start) = _
    rw [List.filter_append]
    have h1 : db.summaries.filter (fun r => r.start_date == s.start) = [] := by
      rw [List.filter_eq_nil_iff]
      intro r hr
      simpa using hStart r hr
    rw [h1]
    simp [mkSummaryRow]
  have hfilP : (save_summary db s c none).1.products.filter
      (fun r => r.summary_id == db.nextSummaryId)
      = newProductRows db.nextSummaryId db.nextProductId s.top_products := by
    rw [hdb]
    show (db.products ++ newProductRows db.nextSummaryId db.nextProductId s.top_products).filter
        (fun r => r.summary_id == db.nextSummaryId) = _
    rw [List.filter_append]
    have h1 : db.products.filter (fun r => r.summary_id == db.nextSummaryId) = [] := by
      rw [List.filter_eq_nil_iff]
      intro r hr
      simpa using hP r hr
    have h2 : (newProductRows db.nextSummaryId db.nextProductId s.top_products).filter
        (fun r => r.summary_id == db.nextSummaryId)
        = newProductRows db.nextSummaryId db.nextProductId s.top_products := by
      rw [List.filter_eq_self]
      intro r hr
      simpa using newProductRows_summary_id db.nextSummaryId db.nextProductId s.top_products r hr
    rw [h1, h2, List.nil_append]
  have hfetch : (fetch_by_start_date (save_summary db s c none).1 s.start).2
      = some (mkStoredSummary (mkSummaryRow db.nextSummaryId s c)
          (((newProductRows db.nextSummaryId db.nextProductId
              s.top_products).insertionSort productRowOrder).map toStoredProduct)) := by
    unfold fetch_by_start_date
    rw [hfilS]
    simp only [List.insertionSort, List.orderedInsert, List.head?]
    simp only [fetch_products, mkSummaryRow, hfilP]
  refine ⟨_, hfetch, rfl, rfl, rfl, rfl, rfl, rfl, rfl, rfl, rfl, ?_, ?_⟩
  · exact List.Pairwise.map toStoredProduct (fun a b h => h)
      (List.sorted_insertionSort productRowOrder _)
  · exact ((List.perm_insertionSort productRowOrder _).map toStoredProduct).trans
      (by rw [newProductRows_map_toStored])

/-- Witness for C3: the spec's round trip on the empty store (start
2024-01-01, end 2024-01-07, source reportA, products with revenues 600
and 400) finds the record again. -/
theorem save_fetch_round_trip_witness :
    ((∀ r ∈ emptyDb.summaries, r.start_date ≠ exSummary.start)
      ∧ (∀ p ∈ emptyDb.products, p.summary_id ≠ emptyDb.nextSummaryId)
      ∧ (exSummary.top_products.map ProductPerformance.asin).Nodup)
    ∧ (fetch_by_start_date (save_summary emptyDb exSummary "2024-01-08T00:00:00" none).1
        "2024-01-01").2.isSome = true := by
  refine ⟨⟨by decide, by decide, by decide⟩, ?_⟩
  obtain ⟨rec, hrec, -⟩ := save_fetch_round_trip emptyDb exSummary "2024-01-08T00:00:00"
    (by decide) (by decide) (by decide)
  rw [show ("2024-01-01" : String) = exSummary.start from rfl, hrec]
  rfl

/-- A product insert never touches the header table. -/
theorem insertOrReplaceProduct_summaries (d : Database) (sid : Nat) (p : ProductPerformance) :
    (insertOrReplaceProduct d sid p).summaries = d.summaries := rfl

/-- A successful `executemany` loop never touches the header table. -/
theorem insertProductsLoop_ok_summaries (failAt : Option Nat) (sid : Nat) :
    ∀ (ps : List ProductPerformance) (i : Nat) (d d2 : Database),
      insertProductsLoop failAt sid i d ps = Except.ok d2 → d2.summaries = d.summaries := by
  intro ps
  induction ps with
  | nil =>
    intro i d d2 h
    have hd : d = d2 := by simpa [insertProductsLoop] using h
    rw [← hd]
  | cons p ps ih =>
    intro i d d2 h
    simp only [insertProductsLoop] at h
    by_cases hf : failAt = some i
    · rw [if_pos hf] at h
      cases h
    · rw [if_neg hf] at h
      exact (ih (i + 1) (insertOrReplaceProduct d sid p) d2 h).trans
        (insertOrReplaceProduct_summaries d sid p)

/-- An `INSERT OR REPLACE` establishes its own key pair. -/
theorem insertOrReplaceProduct_hasPair_self (d : Database) (sid : Nat)
    (p : ProductPerformance) :
    hasPair (insertOrReplaceProduct d sid p) sid p.asin :=
  ⟨mkProductRow d.nextProductId sid p, by simp [insertOrReplaceProduct], rfl, rfl⟩

/-- An `INSERT OR REPLACE` preserves every key pair already present: a
replaced row's pair is re-established by the replacing row. -/
theorem insertOrReplaceProduct_hasPair_mono (d : Database) (sid' : Nat) (a : String)
    (sid : Nat) (p : ProductPerformance) (h : hasPair d sid' a) :
    hasPair (insertOrReplaceProduct d sid p) sid' a := by
  obtain ⟨r, hr, hsid, hasin⟩ := h
  by_cases hk : productKeyMatches sid p.asin r = true
  · have h1 : r.summary_id = sid ∧ r.asin = p.asin := by
      simpa [productKeyMatches] using hk
    refine ⟨mkProductRow d.nextProductId sid p, by simp [insertOrReplaceProduct], ?_, ?_⟩
    · rw [show (mkProductRow d.nextProductId sid p).summary_id = sid from rfl, ← h1.1, hsid]
    · rw [show (mkProductRow d.nextProductId sid p).asin = p.asin from rfl, ← h1.2, hasin]
  · have hk' : productKeyMatches sid p.asin r = false := by
      revert hk
      cases productKeyMatches sid p.asin r <;> simp
    refine ⟨r, ?_, hsid, hasin⟩
    simp only [insertOrReplaceProduct]
    exact List.mem_append_left _ (List.mem_filter.mpr ⟨hr, by simp [hk']⟩)

/-- A successful `executemany` loop preserves every key pair already
present and establishes the pair of every processed entry. -/
theorem insertProductsLoop_ok_hasPair (failAt : Option Nat) (sid : Nat) :
    ∀ (ps : List ProductPerformance) (i : Nat) (d d2 : Database),
      insertProductsLoop failAt sid i d ps = Except.ok d2 →
      (∀ sid' a, hasPair d sid' a → hasPair d2 sid' a)
      ∧ (∀ p ∈ ps, hasPair d2 sid p.asin) := by
  intro ps
  induction ps with
  | nil =>
    intro i d d2 h
    have hd : d = d2 := by simpa [insertProductsLoop] using h
    subst hd
    exact ⟨fun _ _ hp => hp, fun p hp => absurd hp (List.not_mem_nil p)⟩
  | cons p ps ih =>
    intro i d d2 h
    simp only [insertProductsLoop] at h
    by_cases hf : failAt = some i
    · rw [if_pos hf] at h
      cases h
    · rw [if_neg hf] at h
      obtain ⟨hmono, hall⟩ := ih (i + 1) (insertOrReplaceProduct d sid p) d2 h
      refine ⟨fun sid' a hp =>
        hmono sid' a (insertOrReplaceProduct_hasPair_mono d sid' a sid p hp), ?_⟩
      intro q hq
      rcases List.mem_cons.mp hq with hq | hq
      · subst hq
        exact hmono sid q.asin (insertOrReplaceProduct_hasPair_self d sid q)
      · exact hall q hq

/-- A transaction body that commits returns the new surrogate key, the
header table extended by exactly the new header row, and a line-item
present for every input entry's key pair. -/
theorem saveSummaryBody_ok (db : Database) (s : DashboardSummary) (c : String)
    (failAt : Option Nat) (pr : Database × Nat)
    (h : saveSummaryBody db s c failAt = Except.ok pr) :
    pr.2 = db.nextSummaryId
    ∧ pr.1.summaries = db.summaries ++ [mkSummaryRow db.nextSummaryId s c]
    ∧ ∀ p ∈ s.top_products, hasPair pr.1 db.nextSummaryId p.asin := by
  rw [saveSummaryBody] at h
  by_cases hf : failAt = some 0
  · rw [if_pos hf] at h
    cases h
  · rw [if_neg hf] at h
    dsimp only [insertSummaryRow] at h
    cases hloop : insertProductsLoop failAt db.nextSummaryId 1
        { db with
          summaries := db.summaries ++ [mkSummaryRow db.nextSummaryId s c]
          nextSummaryId := db.nextSummaryId + 1 } s.top_products with
    | error e =>
      rw [hloop] at h
      cases h
    | ok d2 =>
      rw [hloop] at h
      have hpr : (d2, db.nextSummaryId) = pr := by
        simpa [Except.map] using h
      obtain ⟨hmono, hall⟩ :=
        insertProductsLoop_ok_hasPair failAt db.nextSummaryId s.top_products 1 _ d2 hloop
      have hsums := insertProductsLoop_ok_summaries failAt db.nextSummaryId
        s.top_products 1 _ d2 hloop
      rw [← hpr]
      exact ⟨rfl, hsums, hall⟩

/-- C1: A `save_summary` call is atomic.  If any statement fails, the
transaction rolls back and the store afterwards is exactly the store
before the call (no header row, no line-item of the call remains); if
the call succeeds, the committed store holds the new header row together
with a line-item for every entry of the input. -/
theorem save_summary_atomic (db : Database) (s : DashboardSummary) (c : String)
    (failAt : Option Nat) :
    (∀ e, (save_summary db s c failAt).2 = Except.error e
        → (save_summary db s c failAt).1 = db)
    ∧ (∀ sid, (save_summary db s c failAt).2 = Except.ok sid →
        sid = db.nextSummaryId
        ∧ mkSummaryRow db.nextSummaryId s c ∈ (save_summary db s c failAt).1.summaries
        ∧ ∀ p ∈ s.top_products,
            ∃ r ∈ (save_summary db s c failAt).1.products,
              r.summary_id = db.nextSummaryId ∧ r.asin = p.asin) := by
  cases hbody : saveSummaryBody db s c failAt with
  | error e =>
    constructor
    · intro _ _
      simp [save_summary, hbody]
    · intro sid hsid
      rw [show (save_summary db s c failAt).2 = Except.error e by
        simp [save_summary, hbody]] at hsid
      cases hsid
  | ok pr =>
    obtain ⟨hkey, hsums, hpairs⟩ := saveSummaryBody_ok db s c failAt pr hbody
    constructor
    · intro e he
      rw [show (save_summary db s c failAt).2 = Except.ok pr.2 by
        simp [save_summary, hbody]] at he
      cases he
    · intro sid hsid
      have hfst : (save_summary db s c failAt).1 = pr.1 := by
        simp [save_summary, hbody]
      have hsid' : sid = db.nextSummaryId := by
        rw [show (save_summary db s c failAt).2 = Except.ok pr.2 by
          simp [save_summary, hbody]] at hsid
        cases hsid
        exact hkey
      refine ⟨hsid', ?_, ?_⟩
      · rw [hfst, hsums]
        exact List.mem_append_right _ (List.mem_singleton_self _)
      · intro p hp
        rw [hfst]
        exact hpairs p hp

/-- Witness for C1, error path: with the first product insert failing,
the store rolls back to its pre-call contents. -/
theorem save_summary_atomic_witness :
    (save_summary exDb exSummary "2024-02-08T00:00:00" (some 1)).2
        = Except.error SqlError.fault
    ∧ (save_summary exDb exSummary "2024-02-08T00:00:00" (some 1)).1 = exDb :=
  ⟨rfl, (save_summary_atomic exDb exSummary "2024-02-08T00:00:00" (some 1)).1
    SqlError.fault rfl⟩

/-- C4: On a store holding at least one header with the given start date,
`fetch_by_start_date` returns the matching header whose surrogate key
dominates every other matching header's key (the most recently created
one), with its line-items ordered by revenue descending. -/
theorem fetch_by_start_date_latest (db : Database) (start : String)
    (hex : ∃ r ∈ db.summaries, r.start_date = start) :
    ∃ row ∈ db.summaries, row.start_date = start
      ∧ (∀ r ∈ db.summaries, r.start_date = start → r.id ≤ row.id)
      ∧ (fetch_by_start_date db start).2
          = some (mkStoredSummary row (fetch_products db row.id).2)
      ∧ List.Sorted storedProductOrder (fetch_products db row.id).2
      ∧ (fetch_products db row.id).2.Perm
          ((db.products.filter (fun r => r.summary_id == row.id)).map toStoredProduct) := by
  obtain ⟨r0, hr0, hst0⟩ := hex
  set m := db.summaries.filter (fun r => r.start_date == start) with hm
  set sorted := m.insertionSort idDescOrder with hsorted
  have hr0m : r0 ∈ m := List.mem_filter.mpr ⟨hr0, by simpa using hst0⟩
  have hperm : sorted.Perm m := List.perm_insertionSort idDescOrder m
  have hne : sorted ≠ [] := by
    intro hnil
    have hmem : r0 ∈ sorted := hperm.mem_iff.mpr hr0m
    rw [hnil] at hmem
    exact absurd hmem (List.not_mem_nil r0)
  obtain ⟨row, rest, hcons⟩ := List.exists_cons_of_ne_nil hne
  have hhead : sorted.head? = some row := by rw [hcons]; rfl
  have hrowm : row ∈ m := hperm.mem_iff.mp (by rw [hcons]; exact List.mem_cons_self row rest)
  have hrow_in : row ∈ db.summaries := (List.mem_filter.mp hrowm).1
  have hrow_st : row.start_date = start := by simpa using (List.mem_filter.mp hrowm).2
  have hsortedS : List.Sorted idDescOrder sorted := List.sorted_insertionSort idDescOrder m
  have hmax : ∀ r ∈ db.summaries, r.start_date = start → r.id ≤ row.id := by
    intro r hr hst
    have hrm : r ∈ m := List.mem_filter.mpr ⟨hr, by simpa using hst⟩
    have hrs : r ∈ sorted := hperm.mem_iff.mpr hrm
    rw [hcons] at hrs
    rcases List.mem_cons.mp hrs with h | h
    · subst h
      exact le_rfl
    · exact List.rel_of_sorted_cons (hcons ▸ hsortedS) r h
  have hfetch : (fetch_by_start_date db start).2
      = some (mkStoredSummary row (fetch_products db row.id).2) := by
    unfold fetch_by_start_date
    rw [← hm, ← hsorted, hhead]
  refine ⟨row, hrow_in, hrow_st, hmax, hfetch, ?_, ?_⟩
  · exact List.Pairwise.map toStoredProduct (fun a b h => h)
      (List.sorted_insertionSort productRowOrder _)
  · exact (List.perm_insertionSort productRowOrder _).map toStoredProduct

/-- Witness for C4: on `exDb2`, where two headers carry start date
2024-01-01, the lookup succeeds. -/
theorem fetch_by_start_date_latest_witness :
    (∃ r ∈ exDb2.summaries, r.start_date = "2024-01-01")
    ∧ (fetch_by_start_date exDb2 "2024-01-01").2.isSome = true := by
  refine ⟨by decide, ?_⟩
  obtain ⟨row, -, -, -, heq, -⟩ := fetch_by_start_date_latest exDb2 "2024-01-01" (by decide)
  rw [heq]
  rfl

/-- C2: `fetch_recent_summaries` returns exactly the top-`limit` stored
summaries in the order start date descending, ties broken by surrogate
key descending.  The result is the image of a header list `rows` that is
a sub-permutation of the stored headers (no record is invented or
duplicated), has length `min limit n` (exactly `limit` records whenever
enough are stored, all of them otherwise), is sorted in the descending
order, and dominates every stored header left out — together these pin
the selection to the `LIMIT limit` prefix of the `ORDER BY start_date
DESC, id DESC` ordering.  Each returned record carries its line-items
sorted by revenue descending, and a store with no header rows yields the
empty sequence. -/
theorem fetch_recent_summaries_spec (db : Database) (limit : Nat) :
    ∃ rows : List SummaryRow,
      rows.Subperm db.summaries
      ∧ (fetch_recent_summaries db limit).2
          = rows.map (fun row => mkStoredSummary row (fetch_products db row.id).2)
      ∧ rows.length = min limit db.summaries.length
      ∧ (fetch_recent_summaries db limit).2.length ≤ limit
      ∧ List.Sorted summaryOrder rows
      ∧ (∀ r ∈ db.summaries, r ∈ rows ∨ ∀ s ∈ rows, summaryOrder s r)
      ∧ List.Sorted storedSummaryOrder (fetch_recent_summaries db limit).2
      ∧ (∀ row ∈ rows,
          List.Sorted storedProductOrder (fetch_products db row.id).2
          ∧ (fetch_products db row.id).2.Perm
              ((db.products.filter (fun p => p.summary_id == row.id)).map toStoredProduct))
      ∧ (db.summaries = [] → (fetch_recent_summaries db limit).2 = []) := by
  have hres : (fetch_recent_summaries db limit).2
      = ((db.summaries.insertionSort summaryOrder).take limit).map
          (fun row => mkStoredSummary row (fetch_products db row.id).2) := by
    rw [fetch_recent_summaries, fetchSummariesLoop_snd]
  refine ⟨(db.summaries.insertionSort summaryOrder).take limit,
    ?_, hres, ?_, ?_, ?_, ?_, ?_, ?_, ?_⟩
  · exact ((List.take_sublist limit _).subperm).trans
      (List.perm_insertionSort summaryOrder db.summaries).subperm
  · rw [List.length_take, List.length_insertionSort]
  · rw [hres, List.length_map, List.length_take]
    exact min_le_left _ _
  · exact List.Pairwise.sublist (List.take_sublist limit _)
      (List.sorted_insertionSort summaryOrder db.summaries)
  · intro r hr
    have hr' : r ∈ db.summaries.insertionSort summaryOrder :=
      (List.perm_insertionSort summaryOrder db.summaries).mem_iff.mpr hr
    by_cases hmem : r ∈ (db.summaries.insertionSort summaryOrder).take limit
    · exact Or.inl hmem
    · refine Or.inr fun s hs => ?_
      have hsplit := List.take_append_drop limit (db.summaries.insertionSort summaryOrder)
      have hsorted := List.sorted_insertionSort summaryOrder db.summaries
      rw [← hsplit] at hsorted hr'
      rcases List.mem_append.mp hr' with h | h
      · exact absurd h hmem
      · exact (List.pairwise_append.mp hsorted).2.2 s hs r h
  · rw [hres]
    exact List.Pairwise.map _ (fun a b h => h)
      (List.Pairwise.sublist (List.take_sublist limit _)
        (List.sorted_insertionSort summaryOrder db.summaries))
  · intro row hrow
    exact ⟨List.Pairwise.map toStoredProduct (fun a b h => h)
        (List.sorted_insertionSort productRowOrder _),
      (List.perm_insertionSort productRowOrder _).map toStoredProduct⟩
  · intro hnil
    rw [hres, hnil]
    simp [List.insertionSort]

/-- Witness for C2: the empty store yields the empty sequence through the
theorem's empty-store conjunct, and on the store holding start dates
2024-01-01 and 2024-01-08 (written in that order) a limit of 1 selects
exactly the 2024-01-08 summary. -/
theorem fetch_recent_summaries_spec_witness :
    (fetch_recent_summaries emptyDb 10).2 = []
    ∧ ((fetch_recent_summaries exDbDates 1).2.map StoredSummary.start) = ["2024-01-08"] := by
  constructor
  · obtain ⟨rows, -, -, -, -, -, -, -, -, hempty⟩ := fetch_recent_summaries_spec emptyDb 10
    exact hempty rfl
  · decide

/-- Counterexample for C9 as stated: saving `dupSummary` (two product
entries, same identifier) succeeds and returns key 1, yet the store holds
only one line-item row, not one per entry — the second `INSERT OR
REPLACE` replaced the first under `UNIQUE(summary_id, asin)`. -/
theorem save_summary_success_cex :
    (save_summary emptyDb dupSummary "2024-02-08T00:00:00" none).2 = Except.ok 1
    ∧ dupSummary.top_products.length = 2
    ∧ (save_summary emptyDb dupSummary "2024-02-08T00:00:00" none).1.products.length = 1 := by
  decide

/-- Counterexample for C3 as stated: after writing `dupSummary` (two
entries) to a store where its start date was unused, fetching by that
start date returns a record with a single line-item, not one per written
entry. -/
theorem save_fetch_round_trip_cex :
    ((fetch_by_start_date (save_summary emptyDb dupSummary "2024-02-08T00:00:00" none).1
        "2024-02-01").2.map (fun rec => rec.products.length)) = some 1
    ∧ dupSummary.top_products.length = 2 := by
  decide
